import Mathlib

/-!
Shallow embedding of the geonode-importer GPKG handler
(src/importer/handlers/gpkg/handler.py) and proofs about its
coordination logic: dynamic schema provisioning, field fan-out in
batches of 30, the per-batch field-creation task, the ogr2ogr bulk-load
task, and the rollback error callback.

External collaborators (the OGR reader, the celery queue, the Django ORM
row stores, the type-mapping tables living in importer/handlers/gpkg/utils.py,
and the should_be_imported eligibility predicate from importer/handlers/utils.py)
are modelled as explicit state (DB) or as function parameters (stm, gtm, sbi).
-/

/-- Errors raised by the embedded code paths.  typeErrorNoneLen stands for the
TypeError Python raises at `len(layers)` when `ogr.Open` returned None;
dynamicModelError and invalidFieldNameError stand for the exceptions of the
same names raised inside the gpkg_handler task. -/
inductive PipelineError where
  | typeErrorNoneLen : PipelineError
  | dynamicModelError : PipelineError
  | invalidFieldNameError : PipelineError
deriving DecidableEq, Repr

/-- One source column of a layer, as exposed by the OGR schema: its name, the
OGR type name (the result of ogr.FieldDefn.GetTypeName) and the declared
nullability.  The handler never reads the nullability. -/
structure SourceField where
  name : String
  typeName : String
  nullable : Bool
deriving DecidableEq, Repr

/-- One layer of the opened geopackage.  geometryColumn is the result of
GetGeometryColumn (the empty string when the layer has no geometry column,
matching the falsy check in the code); geomTypeName is the result of
ogr.GeometryTypeToName(layer.GetGeomType()). -/
structure Layer where
  name : String
  schema : List SourceField
  geometryColumn : String
  geomTypeName : String
deriving DecidableEq, Repr

/-- A field descriptor dictionary as built by create_dynamic_model_fields and
consumed by the gpkg_handler task.  Option models presence of the dict keys:
class_name is None when the type mapping has no entry, and the geometry
descriptor carries no "null" key at all. -/
structure FieldDef where
  name : Option String
  class_name : Option String
  null : Option Bool
deriving DecidableEq, Repr

/-- The kwargs dict attached to a FieldSchema row: nullability and, for text
classes only, the fixed maximum length. -/
structure FieldKwargs where
  null : Bool
  max_length : Option Nat
deriving DecidableEq, Repr

/-- A persisted FieldSchema row (a FieldRecord of the spec): column name,
resolved class, owning schema id and constraints. -/
structure FieldRecord where
  name : String
  class_name : String
  model_schema : Nat
  kwargs : FieldKwargs
deriving DecidableEq, Repr

/-- A persisted ModelSchema row (a SchemaRecord of the spec). -/
structure ModelSchema where
  id : Nat
  name : String
  db_name : String
  managed : Bool
  db_table_name : String
deriving DecidableEq, Repr

/-- The persistent store crossed by all tasks: the ModelSchema rows, the
FieldSchema rows, the physical tables of the datastore, and the id counter
the ORM uses for newly created ModelSchema rows. -/
structure DB where
  schemas : List ModelSchema
  fieldSchemas : List FieldRecord
  tables : List String
  nextId : Nat
deriving DecidableEq, Repr

/-- Embeds the Python expression `x.name.lower()`.  Both sides act
characterwise (the field names handled here are ASCII), so we map
Char.toLower over the character list. -/
def py_lower (s : String) : String :=
  String.mk (s.data.map Char.toLower)

/-- Embeds the Python expression `s.endswith(suffix)`, used on resolved class
names, as a suffix test on the character lists. -/
def py_endswith (s suffix : String) : Bool :=
  List.isSuffixOf suffix.data s.data

/-- Embeds the Python expression `execution_id.replace("-", "_")`: the pattern
and the replacement are single characters, so the replacement acts
characterwise. -/
def normalize_execution_id (s : String) : String :=
  String.mk (s.data.map (fun c => if c = '-' then '_' else c))

/-- Embeds the Python f-string `the f-string joining layer_name, an underscore and the normalized execution id`
used for the disambiguated schema and table name. -/
def disambiguated_name (layer_name execution_id : String) : String :=
  layer_name ++ ("_") ++ normalize_execution_id execution_id

/-- Embeds the list comprehension
`[layer_schema[i:i + 30] for i in range(0, len(layer_schema), 30)]`:
`range(0, n, 30)` enumerates the (n + 29) / 30 start offsets 30 * k, and the
slice `l[i:i + 30]` is drop i followed by take 30. -/
def chunks30 {α : Type} (l : List α) : List (List α) :=
  (List.range ((l.length + 29) / 30)).map (fun k => (l.drop (30 * k)).take 30)

/-- Embeds the filter kwargs of `ModelSchema.objects.get_or_create(name=...,
db_name="datastore", managed=False, db_table_name=...)`: get_or_create looks
up a row matching every keyword argument. -/
def schema_matches (s : ModelSchema) (name db_name : String) (managed : Bool)
    (db_table_name : String) : Bool :=
  s.name == name && s.db_name == db_name && s.managed == managed &&
    s.db_table_name == db_table_name

/-- Embeds `ModelSchema.objects.get_or_create(...)`: return the first matching
row with created=False, or insert a fresh row (with the next ORM id) and
return it with created=True. -/
def ModelSchema.get_or_create (db : DB) (name db_name : String) (managed : Bool)
    (db_table_name : String) : DB × ModelSchema × Bool :=
  match db.schemas.find? (fun s => schema_matches s name db_name managed db_table_name) with
  | some s => (db, s, false)
  | none =>
      let s : ModelSchema :=
        { id := db.nextId, name := name, db_name := db_name, managed := managed,
          db_table_name := db_table_name }
      ({ db with schemas := db.schemas ++ [s], nextId := db.nextId + 1 }, s, true)

/-- The signature of one dispatched gpkg_handler task:
gpkg_handler.s(execution_id, schema, dynamic_model_schema.id, overwrite, layer_name). -/
structure FieldBatchTask where
  execution_id : String
  fields : List FieldDef
  dynamic_model_schema_id : Nat
  overwrite : Bool
  layer_name : String
deriving DecidableEq, Repr

/-- Embeds the layer_schema list built at the top of
create_dynamic_model_fields: one descriptor per source column, with the name
lowercased, the class resolved through STANDARD_TYPE_MAPPING (parameter stm,
the table lives outside src/), and null always True; plus, when the layer has
a geometry column, one synthesized geometry descriptor resolved through
GEOM_TYPE_MAPPING (parameter gtm) and carrying no "null" key. -/
def layerSchemaOf (stm gtm : String → Option String) (layer : Layer) : List FieldDef :=
  (layer.schema.map (fun x =>
    { name := some (py_lower x.name), class_name := stm x.typeName, null := some true })) ++
  (if layer.geometryColumn ≠ ("") then
    [{ name := some layer.geometryColumn, class_name := gtm layer.geomTypeName, null := none }]
  else [])

/-- Embeds GPKGFileHandler.create_dynamic_model_fields: build the descriptor
list, chunk it by 30, and dispatch one gpkg_handler task per chunk, every
task addressed to dynamic_model_schema.id.  The first component stands for
the `dynamic_model_schema.as_model()` return value. -/
def create_dynamic_model_fields (stm gtm : String → Option String) (layer : Layer)
    (dynamic_model_schema : ModelSchema) (overwrite : Bool) (execution_id : String)
    (layer_name : String) : ModelSchema × List FieldBatchTask :=
  let layer_schema := layerSchemaOf stm gtm layer
  let list_chunked := chunks30 layer_schema
  (dynamic_model_schema,
   list_chunked.map (fun schema =>
     { execution_id := execution_id, fields := schema,
       dynamic_model_schema_id := dynamic_model_schema.id, overwrite := overwrite,
       layer_name := layer_name }))

/-- The value returned by _setup_dynamic_model, together with the database
state it leaves behind: the resolved ModelSchema (standing for the
as_model() result), the use_uuid flag, and the fan-out group. -/
structure SetupResult where
  db : DB
  dynamic_model : ModelSchema
  use_uuid : Bool
  jobs : List FieldBatchTask
deriving DecidableEq, Repr

/-- Embeds GPKGFileHandler._setup_dynamic_model: get_or_create under the layer
name; when the row already existed and override was not requested,
get_or_create again under the disambiguated name and set use_uuid; then build
the field fan-out for the resolved schema. -/
def setup_dynamic_model (stm gtm : String → Option String) (db : DB) (layer : Layer)
    (execution_id : String) (should_be_overrided : Bool) : SetupResult :=
  let r1 := ModelSchema.get_or_create db layer.name ("datastore") false layer.name
  let created := r1.2.2
  if !created && !should_be_overrided then
    let layer_name := disambiguated_name layer.name execution_id
    let r2 := ModelSchema.get_or_create r1.1 layer_name ("datastore") false layer_name
    let fields := create_dynamic_model_fields stm gtm layer r2.2.1 should_be_overrided
      execution_id layer_name
    { db := r2.1, dynamic_model := fields.1, use_uuid := true, jobs := fields.2 }
  else
    let fields := create_dynamic_model_fields stm gtm layer r1.2.1 should_be_overrided
      execution_id layer.name
    { db := r1.1, dynamic_model := fields.1, use_uuid := false, jobs := fields.2 }

/-- Embeds the kwargs construction inside the gpkg_handler task:
`building _kwargs with key "null" from field.get("null", True)` extended with
`{"max_length": 255}` when the class name ends with CharField. -/
def build_kwargs (field : FieldDef) (cn : String) : FieldKwargs :=
  let base : FieldKwargs := { null := field.null.getD true, max_length := none }
  if py_endswith cn ("CharField") then { base with max_length := some 255 } else base

/-- Embeds the queryset filter
`FieldSchema.objects.filter(name=..., model_schema=dynamic_model_schema). -/
def matches_rec (r : FieldRecord) (nm : String) (schema_id : Nat) : Bool :=
  r.name == nm && r.model_schema == schema_id

/-- Embeds the queryset update
`_field_exists.update(class_name=..., model_schema=..., kwargs=_kwargs)`
applied to one row: rows matching the filter get the new class, schema
reference and kwargs; other rows are untouched. -/
def apply_update (nm cn : String) (schema_id : Nat) (kw : FieldKwargs)
    (r : FieldRecord) : FieldRecord :=
  if matches_rec r nm schema_id then
    { r with class_name := cn, model_schema := schema_id, kwargs := kw }
  else r

/-- Embeds the per-field loop of the gpkg_handler task.  row_to_insert is the
pending bulk_create list; queryset updates hit the store immediately, inside
the loop.  A field with a missing class_name or name aborts the loop with
InvalidFieldNameError, leaving the store as it was at that point and
discarding the pending inserts. -/
def gpkg_handler_fields (schema_id : Nat) (overwrite : Bool) :
    List FieldDef → DB → List FieldRecord → DB × List FieldRecord × Option PipelineError
  | [], db, row_to_insert => (db, row_to_insert, none)
  | field :: rest, db, row_to_insert =>
    match field.class_name, field.name with
    | some cn, some nm =>
      let kw := build_kwargs field cn
      if !overwrite then
        gpkg_handler_fields schema_id overwrite rest db (row_to_insert ++
          [{ name := nm, class_name := cn, model_schema := schema_id, kwargs := kw }])
      else if db.fieldSchemas.any (fun r => matches_rec r nm schema_id) then
        gpkg_handler_fields schema_id overwrite rest
          { db with fieldSchemas := db.fieldSchemas.map (apply_update nm cn schema_id kw) }
          row_to_insert
      else
        gpkg_handler_fields schema_id overwrite rest db (row_to_insert ++
          [{ name := nm, class_name := cn, model_schema := schema_id, kwargs := kw }])
    | _, _ => (db, row_to_insert, some PipelineError.invalidFieldNameError)

/-- Embeds the gpkg_handler celery task: raise DynamicModelError when no
ModelSchema row has the given id, otherwise run the per-field loop and, on
success, bulk_create the pending rows (the batch size 50 of bulk_create does
not change the resulting row set). -/
def gpkg_handler (db : DB) (execution_id : String) (fields : List FieldDef)
    (dynamic_model_schema_id : Nat) (overwrite : Bool) (layer_name : String) :
    DB × Except PipelineError Unit :=
  if (db.schemas.find? (fun s => s.id == dynamic_model_schema_id)).isSome then
    match gpkg_handler_fields dynamic_model_schema_id overwrite fields db [] with
    | (db1, row_to_insert, none) =>
        ({ db1 with fieldSchemas := db1.fieldSchemas ++ row_to_insert }, Except.ok ())
    | (db1, _, some e) => (db1, Except.error e)
  else (db, Except.error PipelineError.dynamicModelError)

/-- Embeds the tail of the gpkg_ogr2ogr celery task.  The command
construction and the Popen call are external; the task observes the
subprocess through (stdout, stderr) and applies
`the check that stderr is not None and not empty, raising Exception(stderr)` then
`return stdout.decode()`. -/
def gpkg_ogr2ogr (stdout : String) (stderr : Option String) : Except String String :=
  match stderr with
  | some err => if err ≠ ("") then Except.error err else Except.ok stdout
  | none => Except.ok stdout

/-- The signature of the dispatched gpkg_ogr2ogr task:
gpkg_ogr2ogr.s(execution_id, files, layer.GetName(), should_be_overrided, alternate). -/
structure OgrTask where
  execution_id : String
  base_file : String
  original_name : String
  override_layer : Bool
  alternate : String
deriving DecidableEq, Repr

/-- The signature of the chord body gpkg_next_step.s(execution_id,
"importer.import_resource", layer_name, alternate). -/
structure NextStepTask where
  execution_id : String
  actual_step : String
  layer_name : String
  alternate : String
deriving DecidableEq, Repr

/-- One per-layer chord: the field-batch group and the ogr2ogr task (both
with gpkg_error_callback as their failure link) joined into gpkg_next_step. -/
structure Workflow where
  field_tasks : List FieldBatchTask
  ogr_task : OgrTask
  next_step : NextStepTask
deriving DecidableEq, Repr

/-- The observable outcome of import_resource: the database state, the
ExecutionRequest updates performed (recorded as layer name and 1-based index;
the code writes a progress log line computed from them), the dispatched
per-layer workflows, and the success or failure of the call itself. -/
structure ImportOutcome where
  db : DB
  updates : List (String × Nat)
  workflows : List Workflow
  result : Except PipelineError Unit
deriving Repr

/-- Embeds the `for index, layer in enumerate(layers, start=1)` loop of
the import_resource method: per eligible layer (sbi embeds should_be_imported, which
lives outside src/), update the ExecutionRequest, set up the dynamic model,
compute the alternate name from use_uuid, and dispatch the chord. -/
def import_layers (stm gtm : String → Option String) (sbi : String → Bool)
    (should_be_overrided : Bool) (execution_id base_file : String) :
    List Layer → Nat → DB → List (String × Nat) → List Workflow →
    DB × List (String × Nat) × List Workflow
  | [], _, db, ups, wfs => (db, ups, wfs)
  | layer :: rest, index, db, ups, wfs =>
    if sbi layer.name then
      let ups1 := ups ++ [(layer.name, index)]
      let r := setup_dynamic_model stm gtm db layer execution_id should_be_overrided
      let alternate := if !r.use_uuid then layer.name
        else disambiguated_name layer.name execution_id
      let wf : Workflow :=
        { field_tasks := r.jobs,
          ogr_task := { execution_id := execution_id, base_file := base_file,
                        original_name := layer.name, override_layer := should_be_overrided,
                        alternate := alternate },
          next_step := { execution_id := execution_id,
                         actual_step := ("importer.import_resource"),
                         layer_name := layer.name, alternate := alternate } }
      import_layers stm gtm sbi should_be_overrided execution_id base_file rest
        (index + 1) r.db ups1 (wfs ++ [wf])
    else
      import_layers stm gtm sbi should_be_overrided execution_id base_file rest
        (index + 1) db ups wfs

/-- Embeds GPKGFileHandler.import_resource.  opened is the result of
`ogr.Open(files.get("base_file"))`: None when the file cannot be opened, in
which case `len(layers)` raises TypeError before any update or dispatch;
otherwise the layer list, iterated by the loop.  The execution request is
only read before the loop. -/
def import_resource (stm gtm : String → Option String) (sbi : String → Bool) (db : DB)
    (opened : Option (List Layer)) (execution_id : String) (should_be_overrided : Bool)
    (base_file : String) : ImportOutcome :=
  match opened with
  | none =>
      { db := db, updates := [], workflows := [],
        result := Except.error PipelineError.typeErrorNoneLen }
  | some layers =>
      let r := import_layers stm gtm sbi should_be_overrided execution_id base_file
        layers 1 db [] []
      { db := r.1, updates := r.2.1, workflows := r.2.2, result := Except.ok () }

/-- Embeds the gpkg_error_callback task.  task_args is the positional argument
list of the failing task itself (args[0].args in the code); drop_raises says whether
the storage engine raises from drop_table (the exception is caught and
logged).  The callback reads the table name from the last positional
argument, and when a ModelSchema row with that name exists, drops the backing
table of the first such row (when the engine cooperates) and then deletes
every row with that name; it returns the string "error". -/
def error_callback (db : DB) (task_args : List String) (drop_raises : Bool) :
    DB × Except Unit String :=
  match task_args.getLast? with
  | none => (db, Except.error ())
  | some alternate =>
    match db.schemas.find? (fun s => s.name == alternate) with
    | some s =>
        let db1 := if drop_raises then db
          else { db with tables := db.tables.filter (fun t => t ≠ s.db_table_name) }
        let db2 := { db1 with schemas := db1.schemas.filter (fun m => m.name ≠ alternate) }
        (db2, Except.ok ("error"))
    | none => (db, Except.ok ("error"))

/-! Helper lemmas about the chunking of the field list. -/

theorem range_map_slices_flatten {α : Type} :
    ∀ (m : Nat) (l : List α), l.length ≤ 30 * m →
      ((List.range m).map (fun k => (l.drop (30 * k)).take 30)).flatten = l := by
  intro m
  induction m with
  | zero =>
      intro l hl
      simp only [Nat.mul_zero, Nat.le_zero] at hl
      simp [List.eq_nil_of_length_eq_zero hl]
  | succ m ih =>
      intro l hl
      rw [List.range_succ_eq_map, List.map_cons, List.map_map, List.flatten_cons]
      have hcongr : (List.range m).map
            ((fun k => (l.drop (30 * k)).take 30) ∘ Nat.succ) =
          (List.range m).map (fun k => ((l.drop 30).drop (30 * k)).take 30) := by
        apply List.map_congr_left
        intro k _
        simp only [Function.comp_apply, List.drop_drop]
        have h30 : 30 * Nat.succ k = 30 + 30 * k := by omega
        rw [h30]
      rw [hcongr, ih (l.drop 30) (by simp only [List.length_drop]; omega)]
      simp [List.take_append_drop]

theorem chunks30_flatten {α : Type} (l : List α) : (chunks30 l).flatten = l := by
  apply range_map_slices_flatten
  omega

theorem chunks30_length {α : Type} (l : List α) :
    (chunks30 l).length = (l.length + 29) / 30 := by
  simp [chunks30]

theorem chunks30_sizes {α : Type} (l : List α) : ∀ c ∈ chunks30 l, c.length ≤ 30 := by
  intro c hc
  simp only [chunks30, List.mem_map] at hc
  obtain ⟨k, _, hk⟩ := hc
  subst hk
  simp [List.length_take]

/-! Helper lemmas about strings and the disambiguated name. -/

theorem string_data_append (a b : String) : (a ++ b).data = a.data ++ b.data := by
  cases a; cases b; rfl

theorem disambiguated_name_data (a e : String) :
    (disambiguated_name a e).data = a.data ++ ('_' :: (normalize_execution_id e).data) := by
  rw [disambiguated_name, string_data_append, string_data_append, List.append_assoc]
  rfl

theorem disambiguated_name_ne (a e : String) : disambiguated_name a e ≠ a := by
  intro h
  have hd := congrArg String.data h
  rw [disambiguated_name_data] at hd
  have := congrArg List.length hd
  simp only [List.length_append, List.length_cons] at this
  omega

/-! Helper lemmas about get_or_create. -/

theorem get_or_create_found {db : DB} {n dn t : String} {m : Bool} {s : ModelSchema}
    (h : db.schemas.find? (fun x => schema_matches x n dn m t) = some s) :
    ModelSchema.get_or_create db n dn m t = (db, s, false) := by
  simp [ModelSchema.get_or_create, h]

theorem get_or_create_not_found {db : DB} {n dn t : String} {m : Bool}
    (h : db.schemas.find? (fun x => schema_matches x n dn m t) = none) :
    ModelSchema.get_or_create db n dn m t =
      ({ db with
          schemas := db.schemas ++ [ModelSchema.mk db.nextId n dn m t],
          nextId := db.nextId + 1 },
       ModelSchema.mk db.nextId n dn m t, true) := by
  simp [ModelSchema.get_or_create, h]

theorem schema_matches_iff (s : ModelSchema) (n dn : String) (m : Bool) (t : String) :
    schema_matches s n dn m t = true ↔
      s.name = n ∧ s.db_name = dn ∧ s.managed = m ∧ s.db_table_name = t := by
  simp [schema_matches, Bool.and_eq_true, and_assoc]

theorem get_or_create_result_matches (db : DB) (n dn : String) (m : Bool) (t : String) :
    (ModelSchema.get_or_create db n dn m t).2.1.name = n ∧
    (ModelSchema.get_or_create db n dn m t).2.1.db_name = dn ∧
    (ModelSchema.get_or_create db n dn m t).2.1.managed = m ∧
    (ModelSchema.get_or_create db n dn m t).2.1.db_table_name = t := by
  match h : db.schemas.find? (fun x => schema_matches x n dn m t) with
  | some s =>
      rw [get_or_create_found h]
      have hp : schema_matches s n dn m t = true := by
        have hq := List.find?_some h
        simpa using hq
      exact (schema_matches_iff s n dn m t).mp hp
  | none =>
      rw [get_or_create_not_found h]
      exact ⟨rfl, rfl, rfl, rfl⟩

theorem get_or_create_created_iff (db : DB) (n dn : String) (m : Bool) (t : String) :
    (ModelSchema.get_or_create db n dn m t).2.2 = false ↔
      ∃ s ∈ db.schemas, schema_matches s n dn m t = true := by
  match h : db.schemas.find? (fun x => schema_matches x n dn m t) with
  | some s =>
      rw [get_or_create_found h]
      have hp : schema_matches s n dn m t = true := by
        have hq := List.find?_some h
        simpa using hq
      exact iff_of_true rfl ⟨s, List.mem_of_find?_eq_some h, hp⟩
  | none =>
      rw [get_or_create_not_found h]
      apply iff_of_false (by simp)
      intro ⟨s, hs, hm⟩
      exact (List.find?_eq_none.mp h) s hs hm

/-! Helper lemmas about the per-field loop of the gpkg_handler task. -/

theorem map_id_of_mem {α : Type} (l : List α) (f : α → α) (h : ∀ a ∈ l, f a = a) :
    l.map f = l := by
  induction l with
  | nil => rfl
  | cons a as ih =>
      rw [List.map_cons, h a (List.mem_cons_self a as),
        ih (fun x hx => h x (List.mem_cons_of_mem a hx))]

theorem matches_rec_iff (r : FieldRecord) (nm : String) (sid : Nat) :
    matches_rec r nm sid = true ↔ r.name = nm ∧ r.model_schema = sid := by
  simp [matches_rec]

theorem gpkg_handler_fields_schemas (sid : Nat) (ow : Bool) :
    ∀ (fields : List FieldDef) (db : DB) (rti : List FieldRecord),
      (gpkg_handler_fields sid ow fields db rti).1.schemas = db.schemas ∧
      (gpkg_handler_fields sid ow fields db rti).1.tables = db.tables ∧
      (gpkg_handler_fields sid ow fields db rti).1.nextId = db.nextId := by
  intro fields
  induction fields with
  | nil => intro db rti; exact ⟨rfl, rfl, rfl⟩
  | cons f rest ih =>
      intro db rti
      match hc : f.class_name, hn : f.name with
      | some cn, some nm =>
          rw [gpkg_handler_fields, hc, hn]
          by_cases how : ow
          · subst how
            by_cases hany : db.fieldSchemas.any (fun r => matches_rec r nm sid)
            · simp only [Bool.not_true, Bool.false_eq_true, if_false, hany, if_true]
              exact ih _ _
            · simp only [Bool.not_true, Bool.false_eq_true, if_false,
                Bool.not_eq_true] at hany ⊢
              rw [hany]
              simp only [Bool.false_eq_true, if_false]
              exact ih _ _
          · simp only [Bool.not_eq_true] at how
            subst how
            simp only [Bool.not_false, if_true]
            exact ih _ _
      | none, _ =>
          rw [gpkg_handler_fields, hc]
          exact ⟨rfl, rfl, rfl⟩
      | some cn, none =>
          rw [gpkg_handler_fields, hc, hn]
          exact ⟨rfl, rfl, rfl⟩

theorem apply_update_preserves_key (nm cn : String) (sid : Nat) (kw : FieldKwargs)
    (r : FieldRecord) :
    (apply_update nm cn sid kw r).name = r.name ∧
    (apply_update nm cn sid kw r).model_schema = r.model_schema := by
  unfold apply_update
  by_cases h : matches_rec r nm sid
  · obtain ⟨h1, h2⟩ := (matches_rec_iff r nm sid).mp h
    simp [h, h2]
  · simp [h]

theorem gpkg_handler_fields_error_on_bad (sid : Nat) (ow : Bool) :
    ∀ (fields : List FieldDef) (db : DB) (rti : List FieldRecord),
      (∃ f ∈ fields, f.class_name = none ∨ f.name = none) →
      (gpkg_handler_fields sid ow fields db rti).2.2 =
          some PipelineError.invalidFieldNameError ∧
      (gpkg_handler_fields sid ow fields db rti).1.fieldSchemas.map
          (fun r => (r.name, r.model_schema)) =
        db.fieldSchemas.map (fun r => (r.name, r.model_schema)) ∧
      (ow = false → (gpkg_handler_fields sid ow fields db rti).1 = db) := by
  intro fields
  induction fields with
  | nil =>
      intro db rti hbad
      obtain ⟨f, hf, _⟩ := hbad
      exact absurd hf (List.not_mem_nil f)
  | cons f rest ih =>
      intro db rti hbad
      match hc : f.class_name, hn : f.name with
      | some cn, some nm =>
          have hbad2 : ∃ g ∈ rest, g.class_name = none ∨ g.name = none := by
            obtain ⟨g, hg, hgbad⟩ := hbad
            rcases List.mem_cons.mp hg with rfl | hgr
            · rcases hgbad with h | h
              · rw [hc] at h; exact absurd h (by simp)
              · rw [hn] at h; exact absurd h (by simp)
            · exact ⟨g, hgr, hgbad⟩
          rw [gpkg_handler_fields, hc, hn]
          by_cases how : ow
          · subst how
            by_cases hany : db.fieldSchemas.any (fun r => matches_rec r nm sid)
            · simp only [Bool.not_true, Bool.false_eq_true, if_false, hany, if_true]
              have hres := ih
                { db with fieldSchemas :=
                    db.fieldSchemas.map (apply_update nm cn sid (build_kwargs f cn)) }
                rti hbad2
              refine ⟨hres.1, ?_, fun hfalse => by exact absurd hfalse (by simp)⟩
              rw [hres.2.1]
              simp only [List.map_map]
              apply List.map_congr_left
              intro r _
              have hk := apply_update_preserves_key nm cn sid (build_kwargs f cn) r
              simp [Function.comp_apply, hk.1, hk.2]
            · simp only [Bool.not_true, Bool.false_eq_true, if_false,
                Bool.not_eq_true] at hany ⊢
              rw [hany]
              simp only [Bool.false_eq_true, if_false]
              have hres := ih db (rti ++
                [FieldRecord.mk nm cn sid (build_kwargs f cn)]) hbad2
              exact ⟨hres.1, hres.2.1, fun hfalse => by exact absurd hfalse (by simp)⟩
          · simp only [Bool.not_eq_true] at how
            subst how
            simp only [Bool.not_false, if_true]
            have hres := ih db (rti ++
              [FieldRecord.mk nm cn sid (build_kwargs f cn)]) hbad2
            exact ⟨hres.1, hres.2.1, fun _ => hres.2.2 rfl⟩
      | none, _ =>
          rw [gpkg_handler_fields, hc]
          exact ⟨rfl, rfl, fun _ => rfl⟩
      | some cn, none =>
          rw [gpkg_handler_fields, hc, hn]
          exact ⟨rfl, rfl, fun _ => rfl⟩

/-- The canonical FieldSchema row the gpkg_handler task writes for a valid
field descriptor. -/
def canonical_record (f : FieldDef) (nm cn : String) (sid : Nat) : FieldRecord :=
  FieldRecord.mk nm cn sid (build_kwargs f cn)

/-- A valid field descriptor is settled in a row set when at least one row
carries its name under the schema and every such row is exactly the
canonical row the task writes for it. -/
def settled (recs : List FieldRecord) (sid : Nat) (f : FieldDef) : Prop :=
  ∀ nm cn, f.name = some nm → f.class_name = some cn →
    ((∃ r ∈ recs, r.name = nm ∧ r.model_schema = sid) ∧
     ∀ r ∈ recs, r.name = nm → r.model_schema = sid → r = canonical_record f nm cn sid)

theorem gpkg_handler_fields_fixed (sid : Nat) :
    ∀ (fields : List FieldDef) (db : DB) (rti : List FieldRecord),
      (∀ f ∈ fields, f.name.isSome ∧ f.class_name.isSome) →
      (∀ f ∈ fields, settled db.fieldSchemas sid f) →
      gpkg_handler_fields sid true fields db rti = (db, rti, none) := by
  intro fields
  induction fields with
  | nil => intro db rti _ _; rfl
  | cons f rest ih =>
      intro db rti hv hs
      have hf : f ∈ f :: rest := List.mem_cons_self f rest
      obtain ⟨nm, hn⟩ := Option.isSome_iff_exists.mp (hv f hf).1
      obtain ⟨cn, hc⟩ := Option.isSome_iff_exists.mp (hv f hf).2
      have hsf := hs f hf nm cn hn hc
      rw [gpkg_handler_fields, hc, hn]
      have hany : db.fieldSchemas.any (fun r => matches_rec r nm sid) = true := by
        obtain ⟨r, hr, hr1, hr2⟩ := hsf.1
        exact List.any_eq_true.mpr ⟨r, hr, (matches_rec_iff r nm sid).mpr ⟨hr1, hr2⟩⟩
      simp only [Bool.not_true, Bool.false_eq_true, if_false, hany, if_true]
      have hid : db.fieldSchemas.map (apply_update nm cn sid (build_kwargs f cn)) =
          db.fieldSchemas := by
        apply map_id_of_mem
        intro r hr
        by_cases hm : matches_rec r nm sid
        · obtain ⟨h1, h2⟩ := (matches_rec_iff _ _ _).mp hm
          have hcan := hsf.2 r hr h1 h2
          subst hcan
          simp [apply_update, matches_rec, canonical_record]
        · simp [apply_update, hm]
      rw [hid]
      exact ih db rti (fun g hg => hv g (List.mem_cons_of_mem f hg))
        (fun g hg => hs g (List.mem_cons_of_mem f hg))

theorem settled_insert (recs : List FieldRecord) (extra : FieldRecord) (sid : Nat)
    (f0 : FieldDef) (hset : settled recs sid f0)
    (hne : ∀ nm, f0.name = some nm → extra.name ≠ nm) :
    settled (recs ++ [extra]) sid f0 := by
  intro nm cn h0 h1
  obtain ⟨⟨r, hr, hr1, hr2⟩, huniq⟩ := hset nm cn h0 h1
  constructor
  · exact ⟨r, List.mem_append_left _ hr, hr1, hr2⟩
  · intro r' hr' h1' h2'
    rcases List.mem_append.mp hr' with h | h
    · exact huniq r' h h1' h2'
    · rw [List.mem_singleton.mp h] at h1'
      exact absurd h1' (hne nm h0)

theorem gpkg_handler_fields_preserves_settled (sid : Nat) :
    ∀ (fields : List FieldDef) (db : DB) (rti : List FieldRecord) (f0 : FieldDef),
      (∀ g ∈ fields, g.name ≠ f0.name) →
      settled (db.fieldSchemas ++ rti) sid f0 →
      settled ((gpkg_handler_fields sid true fields db rti).1.fieldSchemas ++
        (gpkg_handler_fields sid true fields db rti).2.1) sid f0 := by
  intro fields
  induction fields with
  | nil => intro db rti f0 _ hset; exact hset
  | cons g rest ih =>
      intro db rti f0 hne hset
      match hc : g.class_name, hn : g.name with
      | some cn2, some nm2 =>
          have hgne : ∀ nm, f0.name = some nm → nm2 ≠ nm := by
            intro nm h0 hcontra
            apply hne g (List.mem_cons_self g rest)
            rw [hn, h0, hcontra]
          rw [gpkg_handler_fields, hc, hn]
          simp only [Bool.not_true, Bool.false_eq_true, if_false]
          by_cases hany : db.fieldSchemas.any (fun r => matches_rec r nm2 sid) = true
          · rw [if_pos hany]
            apply ih _ _ f0 (fun g' hg' => hne g' (List.mem_cons_of_mem g hg'))
            intro nm cn h0 h1
            obtain ⟨⟨r, hr, hr1, hr2⟩, huniq⟩ := hset nm cn h0 h1
            have hnm2 : nm2 ≠ nm := hgne nm h0
            constructor
            · rcases List.mem_append.mp hr with hdb | hrti
              · have hfix : apply_update nm2 cn2 sid (build_kwargs g cn2) r = r := by
                  have hmf : matches_rec r nm2 sid = false := by
                    by_contra hmb
                    rw [Bool.not_eq_false] at hmb
                    obtain ⟨ha, _⟩ := (matches_rec_iff r nm2 sid).mp hmb
                    rw [hr1] at ha
                    exact hnm2 ha.symm
                  simp [apply_update, hmf]
                refine ⟨r, List.mem_append_left _ ?_, hr1, hr2⟩
                exact List.mem_map.mpr ⟨r, hdb, hfix⟩
              · exact ⟨r, List.mem_append_right _ hrti, hr1, hr2⟩
            · intro r' hr' h1' h2'
              rcases List.mem_append.mp hr' with hmapped | hrti
              · obtain ⟨r0, hr0, hfr0⟩ := List.mem_map.mp hmapped
                by_cases hm : matches_rec r0 nm2 sid = true
                · exfalso
                  have hname : r'.name = r0.name := by
                    rw [← hfr0]
                    exact (apply_update_preserves_key nm2 cn2 sid
                      (build_kwargs g cn2) r0).1
                  have : r0.name = nm2 := ((matches_rec_iff r0 nm2 sid).mp hm).1
                  rw [hname, this] at h1'
                  exact hnm2 h1'
                · have hfix : apply_update nm2 cn2 sid (build_kwargs g cn2) r0 = r0 := by
                    simp [apply_update, hm]
                  rw [hfix] at hfr0
                  subst hfr0
                  exact huniq r0 (List.mem_append_left _ hr0) h1' h2'
              · exact huniq r' (List.mem_append_right _ hrti) h1' h2'
          · rw [if_neg hany]
            apply ih _ _ f0 (fun g' hg' => hne g' (List.mem_cons_of_mem g hg'))
            rw [← List.append_assoc]
            apply settled_insert _ _ _ _ hset
            intro nm h0
            exact hgne nm h0
      | none, _ =>
          rw [gpkg_handler_fields, hc]
          exact hset
      | some cn2, none =>
          rw [gpkg_handler_fields, hc, hn]
          exact hset


theorem settled_of_mapped (db : DB) (rti : List FieldRecord) (sid : Nat) (f : FieldDef)
    (nm cn : String) (hn : f.name = some nm) (hc : f.class_name = some cn)
    (hany : db.fieldSchemas.any (fun r => matches_rec r nm sid) = true)
    (hrti : ∀ r ∈ rti, some r.name ≠ f.name) :
    settled (db.fieldSchemas.map (apply_update nm cn sid (build_kwargs f cn)) ++ rti)
      sid f := by
  intro nm0 cn0 h0 h1
  have hnm0 : nm = nm0 := by rw [hn] at h0; exact Option.some_inj.mp h0
  have hcn0 : cn = cn0 := by rw [hc] at h1; exact Option.some_inj.mp h1
  subst hnm0; subst hcn0
  constructor
  · obtain ⟨r, hr, hmr⟩ := List.any_eq_true.mp hany
    have hupd : apply_update nm cn sid (build_kwargs f cn) r =
        canonical_record f nm cn sid := by
      obtain ⟨ha, _⟩ := (matches_rec_iff r nm sid).mp hmr
      simp [apply_update, hmr, canonical_record, ha]
    exact ⟨canonical_record f nm cn sid,
      List.mem_append_left _ (List.mem_map.mpr ⟨r, hr, hupd⟩), rfl, rfl⟩
  · intro r' hr' h1' h2'
    rcases List.mem_append.mp hr' with hmapped | hmem
    · obtain ⟨r0, hr0, heq⟩ := List.mem_map.mp hmapped
      by_cases hm0 : matches_rec r0 nm sid = true
      · obtain ⟨ha, _⟩ := (matches_rec_iff r0 nm sid).mp hm0
        rw [← heq]
        simp [apply_update, hm0, canonical_record, ha]
      · exfalso
        have hfix : apply_update nm cn sid (build_kwargs f cn) r0 = r0 := by
          simp [apply_update, hm0]
        rw [hfix] at heq
        subst heq
        exact hm0 ((matches_rec_iff r0 nm sid).mpr ⟨h1', h2'⟩)
    · exfalso
      have hcontra := hrti r' hmem
      rw [hn] at hcontra
      exact hcontra (by rw [h1'])

theorem settled_of_inserted (db : DB) (rti : List FieldRecord) (sid : Nat) (f : FieldDef)
    (nm cn : String) (hn : f.name = some nm) (hc : f.class_name = some cn)
    (hany : ¬ db.fieldSchemas.any (fun r => matches_rec r nm sid) = true)
    (hrti : ∀ r ∈ rti, some r.name ≠ f.name) :
    settled (db.fieldSchemas ++ (rti ++ [FieldRecord.mk nm cn sid (build_kwargs f cn)]))
      sid f := by
  intro nm0 cn0 h0 h1
  have hnm0 : nm = nm0 := by rw [hn] at h0; exact Option.some_inj.mp h0
  have hcn0 : cn = cn0 := by rw [hc] at h1; exact Option.some_inj.mp h1
  subst hnm0; subst hcn0
  constructor
  · refine ⟨canonical_record f nm cn sid, ?_, rfl, rfl⟩
    apply List.mem_append_right
    apply List.mem_append_right
    exact List.mem_singleton.mpr rfl
  · intro r' hr' h1' h2'
    rcases List.mem_append.mp hr' with hdb | hmem
    · exfalso
      exact hany (List.any_eq_true.mpr
        ⟨r', hdb, (matches_rec_iff r' nm sid).mpr ⟨h1', h2'⟩⟩)
    · rcases List.mem_append.mp hmem with hold | hnew
      · exfalso
        have hcontra := hrti r' hold
        rw [hn] at hcontra
        exact hcontra (by rw [h1'])
      · rw [List.mem_singleton.mp hnew]
        rfl

theorem gpkg_handler_fields_establishes (sid : Nat) :
    ∀ (fields : List FieldDef) (db : DB) (rti : List FieldRecord),
      (∀ f ∈ fields, f.name.isSome ∧ f.class_name.isSome) →
      fields.Pairwise (fun a b => a.name ≠ b.name) →
      (∀ f ∈ fields, ∀ r ∈ rti, some r.name ≠ f.name) →
      (gpkg_handler_fields sid true fields db rti).2.2 = none ∧
      ∀ f ∈ fields,
        settled ((gpkg_handler_fields sid true fields db rti).1.fieldSchemas ++
          (gpkg_handler_fields sid true fields db rti).2.1) sid f := by
  intro fields
  induction fields with
  | nil =>
      intro db rti _ _ _
      exact ⟨rfl, fun f hf => absurd hf (List.not_mem_nil f)⟩
  | cons f rest ih =>
      intro db rti hv hp hrti
      have hf : f ∈ f :: rest := List.mem_cons_self f rest
      obtain ⟨nm, hn⟩ := Option.isSome_iff_exists.mp (hv f hf).1
      obtain ⟨cn, hc⟩ := Option.isSome_iff_exists.mp (hv f hf).2
      have hpc := List.pairwise_cons.mp hp
      have hrestne : ∀ g ∈ rest, g.name ≠ f.name := fun g hg => (hpc.1 g hg).symm
      have hvr : ∀ g ∈ rest, g.name.isSome ∧ g.class_name.isSome :=
        fun g hg => hv g (List.mem_cons_of_mem f hg)
      rw [gpkg_handler_fields, hc, hn]
      simp only [Bool.not_true, Bool.false_eq_true, if_false]
      by_cases hany : db.fieldSchemas.any (fun r => matches_rec r nm sid) = true
      · rw [if_pos hany]
        have hsf := settled_of_mapped db rti sid f nm cn hn hc hany
          (fun r hr => hrti f hf r hr)
        have hihres := ih
          { db with fieldSchemas := db.fieldSchemas.map (apply_update nm cn sid (build_kwargs f cn)) }
          rti hvr hpc.2 (fun g hg r hr => hrti g (List.mem_cons_of_mem f hg) r hr)
        refine ⟨hihres.1, ?_⟩
        intro g hg
        rcases List.mem_cons.mp hg with rfl | hgr
        · exact gpkg_handler_fields_preserves_settled sid rest
            { db with fieldSchemas := db.fieldSchemas.map (apply_update nm cn sid (build_kwargs g cn)) }
            rti g hrestne hsf
        · exact hihres.2 g hgr
      · rw [if_neg hany]
        have hsf := settled_of_inserted db rti sid f nm cn hn hc hany
          (fun r hr => hrti f hf r hr)
        have hrti2cond : ∀ g ∈ rest,
            ∀ r ∈ rti ++ [FieldRecord.mk nm cn sid (build_kwargs f cn)],
              some r.name ≠ g.name := by
          intro g hg r hr
          rcases List.mem_append.mp hr with hold | hnew
          · exact hrti g (List.mem_cons_of_mem f hg) r hold
          · rw [List.mem_singleton.mp hnew]
            intro hcontra
            apply hpc.1 g hg
            rw [hn, ← hcontra]
        have hihres := ih db (rti ++ [FieldRecord.mk nm cn sid (build_kwargs f cn)])
          hvr hpc.2 hrti2cond
        refine ⟨hihres.1, ?_⟩
        intro g hg
        rcases List.mem_cons.mp hg with rfl | hgr
        · exact gpkg_handler_fields_preserves_settled sid rest db
            (rti ++ [FieldRecord.mk nm cn sid (build_kwargs g cn)]) g hrestne hsf
        · exact hihres.2 g hgr

/-! Concrete fixtures used by the witnesses and counterexamples. -/

/-- A store holding one schema row named t with table t. -/
def db_t : DB :=
  { schemas := [ModelSchema.mk 0 ("t") ("datastore") false ("t")],
    fieldSchemas := [], tables := [], nextId := 1 }

/-- db_t with one existing field row named a under schema 0. -/
def db_b : DB :=
  { db_t with fieldSchemas :=
      [FieldRecord.mk ("a") ("IntegerField") 0 (FieldKwargs.mk true none)] }

/-- A store holding one schema row named roads. -/
def db_roads : DB :=
  { schemas := [ModelSchema.mk 0 ("roads") ("datastore") false ("roads")],
    fieldSchemas := [], tables := [], nextId := 1 }

/-- A store for the rollback witness: a schema row named tbl and two tables. -/
def db_tbl : DB :=
  { schemas := [ModelSchema.mk 0 ("tbl") ("datastore") false ("tbl")],
    fieldSchemas := [], tables := [("tbl"), ("other")], nextId := 1 }

/-- Two field descriptors sharing the name a with different classes. -/
def fields_dup : List FieldDef :=
  [FieldDef.mk (some ("a")) (some ("IntegerField")) (some true),
   FieldDef.mk (some ("a")) (some ("CharField")) (some true)]

/-- A sample standard-type mapping for witnesses. -/
def stm0 : String → Option String :=
  fun t => if t == ("Integer") then some ("IntegerField")
    else if t == ("String") then some ("CharField") else none

/-- A sample geometry-type mapping for witnesses. -/
def gtm0 : String → Option String :=
  fun t => if t == ("Point") then some ("PointField") else none

/-- A sample layer with two attribute columns and a geometry column. -/
def layer0 : Layer :=
  { name := ("roads"),
    schema := [SourceField.mk ("ID") ("Integer") false,
               SourceField.mk ("Label") ("String") true],
    geometryColumn := ("geom"), geomTypeName := ("Point") }

/-- Claim C5 counterexample: a source that opens with zero layers does not
fail; import_resource returns normally, so the claim that it fails with a
SourceUnreadable error in that case is false on the code. -/
theorem import_resource_zero_layers_counterexample :
    (import_resource (fun _ => none) (fun _ => none) (fun _ => true) db_t (some [])
      ("e") false ("f")).result = Except.ok () ∧
    (import_resource (fun _ => none) (fun _ => none) (fun _ => true) db_t (some [])
      ("e") false ("f")).workflows = [] := ⟨rfl, rfl⟩

/-- Claim C5 (amended): when the source cannot be opened (the reader returns
None), import_resource raises before any ExecutionRequest update and before
dispatching any task — the code realizes the SourceUnreadable failure of the
spec as the TypeError of len(None); a source with zero layers does NOT fail:
the call returns normally having updated nothing and dispatched nothing. -/
theorem import_resource_unreadable_amended (stm gtm : String → Option String)
    (sbi : String → Bool) (db : DB) (eid : String) (ov : Bool) (bf : String) :
    ((import_resource stm gtm sbi db none eid ov bf).result =
        Except.error PipelineError.typeErrorNoneLen ∧
     (import_resource stm gtm sbi db none eid ov bf).updates = [] ∧
     (import_resource stm gtm sbi db none eid ov bf).workflows = [] ∧
     (import_resource stm gtm sbi db none eid ov bf).db = db) ∧
    ((import_resource stm gtm sbi db (some []) eid ov bf).result = Except.ok () ∧
     (import_resource stm gtm sbi db (some []) eid ov bf).updates = [] ∧
     (import_resource stm gtm sbi db (some []) eid ov bf).workflows = [] ∧
     (import_resource stm gtm sbi db (some []) eid ov bf).db = db) :=
  ⟨⟨rfl, rfl, rfl, rfl⟩, ⟨rfl, rfl, rfl, rfl⟩⟩

/-- Claim C6: the bulk-load task fails exactly when the diagnostic stream is
present and non-empty, the failure payload is that stream verbatim, and an
empty or absent stream yields success carrying stdout whatever it holds. -/
theorem gpkg_ogr2ogr_stderr_criterion (stdout : String) (stderr : Option String) :
    (∀ err, stderr = some err → err ≠ ("") →
      gpkg_ogr2ogr stdout stderr = Except.error err) ∧
    ((stderr = none ∨ stderr = some ("")) →
      gpkg_ogr2ogr stdout stderr = Except.ok stdout) ∧
    (∀ e, gpkg_ogr2ogr stdout stderr = Except.error e → stderr = some e ∧ e ≠ ("")) := by
  refine ⟨?_, ?_, ?_⟩
  · intro err herr hne
    subst herr
    simp [gpkg_ogr2ogr, hne]
  · intro h
    rcases h with h | h <;> subst h <;> simp [gpkg_ogr2ogr]
  · intro e he
    match hs : stderr with
    | none =>
        simp [gpkg_ogr2ogr] at he
    | some err =>
        by_cases hne : err = ("")
        · subst hne
          simp [gpkg_ogr2ogr] at he
        · simp only [gpkg_ogr2ogr, if_pos hne] at he
          constructor
          · rw [Except.error.injEq] at he
            rw [he]
          · rw [Except.error.injEq] at he
            rw [← he]
            exact hne

/-- Witness for claim C6 at a concrete failing and a concrete succeeding
invocation. -/
theorem gpkg_ogr2ogr_stderr_criterion_witness :
    (("ERROR 1: failure") ≠ ("") ∧
      gpkg_ogr2ogr ("copied") (some ("ERROR 1: failure")) =
        Except.error ("ERROR 1: failure")) ∧
    gpkg_ogr2ogr ("copied") (some ("")) = Except.ok ("copied") :=
  ⟨⟨by decide,
    (gpkg_ogr2ogr_stderr_criterion ("copied") (some ("ERROR 1: failure"))).1
      ("ERROR 1: failure") rfl (by decide)⟩,
   (gpkg_ogr2ogr_stderr_criterion ("copied") (some (""))).2.1 (Or.inr rfl)⟩

/-- Claim C9: invoking the field-batch task with a schema id for which no
ModelSchema row exists raises DynamicModelError and leaves the store
untouched, so no FieldRecord is created for a deleted schema. -/
theorem gpkg_handler_missing_schema (db : DB) (eid : String) (fields : List FieldDef)
    (sid : Nat) (ow : Bool) (ln : String)
    (h : ∀ s ∈ db.schemas, ¬ s.id = sid) :
    gpkg_handler db eid fields sid ow ln =
      (db, Except.error PipelineError.dynamicModelError) := by
  have hfind : db.schemas.find? (fun s => s.id == sid) = none := by
    rw [List.find?_eq_none]
    intro s hs
    simp [h s hs]
  rw [gpkg_handler, hfind]
  simp

/-- Witness for claim C9: the task addressed to the absent schema id 5 fails
without touching the store. -/
theorem gpkg_handler_missing_schema_witness :
    (∀ s ∈ db_t.schemas, ¬ s.id = 5) ∧
    gpkg_handler db_t ("e") fields_dup 5 false ("t") =
      (db_t, Except.error PipelineError.dynamicModelError) :=
  ⟨by decide, gpkg_handler_missing_schema db_t ("e") fields_dup 5 false ("t") (by decide)⟩

/-- Claim C2: for a layer field list of N fields (the synthesized geometry
descriptor included), the fan-out dispatches exactly (N + 29) / 30 batch
tasks, i.e. the ceiling of N / 30; each carries at most 30 fields; the batch
field lists concatenate back to the full list, so every field lands in
exactly one contiguous batch; and every task addresses the same
ModelSchema id. -/
theorem create_dynamic_model_fields_partition (stm gtm : String → Option String)
    (layer : Layer) (schemaRec : ModelSchema) (ow : Bool) (eid ln : String)
    (hN : 1 ≤ (layerSchemaOf stm gtm layer).length) :
    ((create_dynamic_model_fields stm gtm layer schemaRec ow eid ln).2).length =
      ((layerSchemaOf stm gtm layer).length + 29) / 30 ∧
    (∀ j ∈ (create_dynamic_model_fields stm gtm layer schemaRec ow eid ln).2,
      j.fields.length ≤ 30) ∧
    ((create_dynamic_model_fields stm gtm layer schemaRec ow eid ln).2.map
      (fun j => j.fields)).flatten = layerSchemaOf stm gtm layer ∧
    (∀ j ∈ (create_dynamic_model_fields stm gtm layer schemaRec ow eid ln).2,
      j.dynamic_model_schema_id = schemaRec.id) := by
  refine ⟨?_, ?_, ?_, ?_⟩
  · simp [create_dynamic_model_fields, chunks30_length]
  · intro j hj
    simp only [create_dynamic_model_fields, List.mem_map] at hj
    obtain ⟨c, hc, hjc⟩ := hj
    rw [← hjc]
    exact chunks30_sizes _ c hc
  · show (((chunks30 (layerSchemaOf stm gtm layer)).map
        (fun schema => FieldBatchTask.mk eid schema schemaRec.id ow ln)).map
        (fun j => j.fields)).flatten = layerSchemaOf stm gtm layer
    rw [List.map_map]
    have hcomp : ((fun j : FieldBatchTask => j.fields) ∘
        (fun schema => FieldBatchTask.mk eid schema schemaRec.id ow ln)) = id := rfl
    rw [hcomp, List.map_id]
    exact chunks30_flatten _
  · intro j hj
    simp only [create_dynamic_model_fields, List.mem_map] at hj
    obtain ⟨c, hc, hjc⟩ := hj
    rw [← hjc]

/-- Witness for claim C2 on a three-descriptor layer (two attributes and a
geometry column): one batch of three fields addressed to schema id 0. -/
theorem create_dynamic_model_fields_partition_witness :
    1 ≤ (layerSchemaOf stm0 gtm0 layer0).length ∧
    ((create_dynamic_model_fields stm0 gtm0 layer0
        (ModelSchema.mk 0 ("roads") ("datastore") false ("roads")) false ("e")
        ("roads")).2).length =
      ((layerSchemaOf stm0 gtm0 layer0).length + 29) / 30 ∧
    (∀ j ∈ (create_dynamic_model_fields stm0 gtm0 layer0
        (ModelSchema.mk 0 ("roads") ("datastore") false ("roads")) false ("e")
        ("roads")).2, j.fields.length ≤ 30) ∧
    ((create_dynamic_model_fields stm0 gtm0 layer0
        (ModelSchema.mk 0 ("roads") ("datastore") false ("roads")) false ("e")
        ("roads")).2.map (fun j => j.fields)).flatten = layerSchemaOf stm0 gtm0 layer0 ∧
    (∀ j ∈ (create_dynamic_model_fields stm0 gtm0 layer0
        (ModelSchema.mk 0 ("roads") ("datastore") false ("roads")) false ("e")
        ("roads")).2, j.dynamic_model_schema_id = 0) :=
  ⟨by decide,
   create_dynamic_model_fields_partition stm0 gtm0 layer0
     (ModelSchema.mk 0 ("roads") ("datastore") false ("roads")) false ("e") ("roads")
     (by decide)⟩

/-- Claim C1: when the layer name already has a matching SchemaRecord and
override is not requested, provisioning returns use_uuid = true and a
resolved SchemaRecord whose logical name and table name are both the layer
name suffixed with the execution id (hyphens turned to underscores), a record
distinct from every pre-existing matching record; and use_uuid is true
exactly when override is off and such a record pre-existed. -/
theorem setup_dynamic_model_disambiguates (stm gtm : String → Option String) (db : DB)
    (layer : Layer) (execution_id : String) :
    (∀ ov : Bool, (setup_dynamic_model stm gtm db layer execution_id ov).use_uuid = true ↔
       (ov = false ∧ ∃ s ∈ db.schemas,
         schema_matches s layer.name ("datastore") false layer.name = true)) ∧
    ((∃ s ∈ db.schemas, schema_matches s layer.name ("datastore") false layer.name = true) →
       (setup_dynamic_model stm gtm db layer execution_id false).dynamic_model.name =
         disambiguated_name layer.name execution_id ∧
       (setup_dynamic_model stm gtm db layer execution_id false).dynamic_model.db_table_name =
         disambiguated_name layer.name execution_id ∧
       (∀ s ∈ db.schemas, schema_matches s layer.name ("datastore") false layer.name = true →
         (setup_dynamic_model stm gtm db layer execution_id false).dynamic_model ≠ s)) := by
  match hfind : db.schemas.find?
      (fun s => schema_matches s layer.name ("datastore") false layer.name) with
  | some s0 =>
      have hs0mem : s0 ∈ db.schemas := List.mem_of_find?_eq_some hfind
      have hs0m : schema_matches s0 layer.name ("datastore") false layer.name = true := by
        have hq := List.find?_some hfind
        simpa using hq
      have hex : ∃ s ∈ db.schemas,
          schema_matches s layer.name ("datastore") false layer.name = true :=
        ⟨s0, hs0mem, hs0m⟩
      constructor
      · intro ov
        cases ov
        · simp only [setup_dynamic_model, get_or_create_found hfind]
          exact iff_of_true rfl ⟨by trivial, hex⟩
        · simp only [setup_dynamic_model, get_or_create_found hfind]
          apply iff_of_false
          · simp
          · intro ⟨habs, _⟩
            exact absurd habs (by simp)
      · intro _
        have hname := get_or_create_result_matches db
          (disambiguated_name layer.name execution_id) ("datastore") false
          (disambiguated_name layer.name execution_id)
        refine ⟨?_, ?_, ?_⟩
        · simp only [setup_dynamic_model, get_or_create_found hfind]
          exact hname.1
        · simp only [setup_dynamic_model, get_or_create_found hfind]
          exact hname.2.2.2
        · intro s hs hm heq
          have hmodname : (setup_dynamic_model stm gtm db layer execution_id
              false).dynamic_model.name = disambiguated_name layer.name execution_id := by
            simp only [setup_dynamic_model, get_or_create_found hfind]
            exact hname.1
          have hsname : s.name = layer.name :=
            ((schema_matches_iff s layer.name ("datastore") false layer.name).mp hm).1
          rw [heq, hsname] at hmodname
          exact disambiguated_name_ne layer.name execution_id hmodname.symm
  | none =>
      have hnoex : ¬ ∃ s ∈ db.schemas,
          schema_matches s layer.name ("datastore") false layer.name = true := by
        intro ⟨s, hs, hm⟩
        exact (List.find?_eq_none.mp hfind) s hs hm
      constructor
      · intro ov
        apply iff_of_false
        · simp only [setup_dynamic_model, get_or_create_not_found hfind]
          simp
        · intro ⟨_, habs⟩
          exact hnoex habs
      · intro habs
        exact absurd habs hnoex

/-- Witness for claim C1: a pre-existing roads schema, override off, and
execution id run-1 produce a schema named roads_run_1 distinct from the
original. -/
theorem setup_dynamic_model_disambiguates_witness :
    (∃ s ∈ db_roads.schemas,
      schema_matches s ("roads") ("datastore") false ("roads") = true) ∧
    ((∀ ov : Bool,
       (setup_dynamic_model stm0 gtm0 db_roads layer0 ("run-1") ov).use_uuid = true ↔
         (ov = false ∧ ∃ s ∈ db_roads.schemas,
           schema_matches s ("roads") ("datastore") false ("roads") = true)) ∧
     ((∃ s ∈ db_roads.schemas,
        schema_matches s ("roads") ("datastore") false ("roads") = true) →
       (setup_dynamic_model stm0 gtm0 db_roads layer0 ("run-1") false).dynamic_model.name =
         disambiguated_name ("roads") ("run-1") ∧
       (setup_dynamic_model stm0 gtm0 db_roads layer0
           ("run-1") false).dynamic_model.db_table_name =
         disambiguated_name ("roads") ("run-1") ∧
       (∀ s ∈ db_roads.schemas,
         schema_matches s ("roads") ("datastore") false ("roads") = true →
         (setup_dynamic_model stm0 gtm0 db_roads layer0 ("run-1") false).dynamic_model ≠ s))) :=
  ⟨by decide, setup_dynamic_model_disambiguates stm0 gtm0 db_roads layer0 ("run-1")⟩

/-- Claim C7: when the layer name already has a matching SchemaRecord and
override is requested, provisioning reuses it: the store is unchanged (no new
record), the returned record keeps the original logical and table names, and
use_uuid is false. -/
theorem setup_dynamic_model_reuses_on_override (stm gtm : String → Option String)
    (db : DB) (layer : Layer) (execution_id : String)
    (hex : ∃ s ∈ db.schemas,
      schema_matches s layer.name ("datastore") false layer.name = true) :
    (setup_dynamic_model stm gtm db layer execution_id true).use_uuid = false ∧
    (setup_dynamic_model stm gtm db layer execution_id true).db = db ∧
    (setup_dynamic_model stm gtm db layer execution_id true).dynamic_model ∈ db.schemas ∧
    (setup_dynamic_model stm gtm db layer execution_id true).dynamic_model.name =
      layer.name ∧
    (setup_dynamic_model stm gtm db layer execution_id true).dynamic_model.db_table_name =
      layer.name := by
  have hfindSome : (db.schemas.find?
      (fun s => schema_matches s layer.name ("datastore") false layer.name)).isSome := by
    rw [List.find?_isSome]
    obtain ⟨s, hs, hm⟩ := hex
    exact ⟨s, hs, hm⟩
  obtain ⟨s0, hfind⟩ := Option.isSome_iff_exists.mp hfindSome
  have hs0mem : s0 ∈ db.schemas := List.mem_of_find?_eq_some hfind
  have hs0m : schema_matches s0 layer.name ("datastore") false layer.name = true := by
    have hq := List.find?_some hfind
    simpa using hq
  obtain ⟨hn, _, _, ht⟩ :=
    (schema_matches_iff s0 layer.name ("datastore") false layer.name).mp hs0m
  simp only [setup_dynamic_model, get_or_create_found hfind]
  exact ⟨rfl, rfl, hs0mem, hn, ht⟩

/-- Witness for claim C7: with override requested, the pre-existing roads
schema is reused unchanged. -/
theorem setup_dynamic_model_reuses_on_override_witness :
    (∃ s ∈ db_roads.schemas,
      schema_matches s ("roads") ("datastore") false ("roads") = true) ∧
    ((setup_dynamic_model stm0 gtm0 db_roads layer0 ("run-1") true).use_uuid = false ∧
     (setup_dynamic_model stm0 gtm0 db_roads layer0 ("run-1") true).db = db_roads ∧
     (setup_dynamic_model stm0 gtm0 db_roads layer0 ("run-1") true).dynamic_model ∈
       db_roads.schemas ∧
     (setup_dynamic_model stm0 gtm0 db_roads layer0 ("run-1") true).dynamic_model.name =
       ("roads") ∧
     (setup_dynamic_model stm0 gtm0 db_roads layer0
         ("run-1") true).dynamic_model.db_table_name = ("roads")) :=
  ⟨by decide, setup_dynamic_model_reuses_on_override stm0 gtm0 db_roads layer0 ("run-1")
    (by decide)⟩

/-- Claim C8: the rollback callback takes the table name from the last
positional argument of the failing task; when a SchemaRecord with that name
exists it completes without propagating any drop failure, deletes every
SchemaRecord row with that name even when the drop raised, leaves the tables
untouched when the drop raised (the orphaned physical table of the spec),
and otherwise drops the backing table of the first matching record; when no
record matches it does nothing. -/
theorem error_callback_rollback (db : DB) (task_args : List String) (drop_raises : Bool)
    (alternate : String) (hlast : task_args.getLast? = some alternate) :
    ((∀ s ∈ db.schemas, ¬ s.name = alternate) →
       error_callback db task_args drop_raises = (db, Except.ok ("error"))) ∧
    ((∃ s ∈ db.schemas, s.name = alternate) →
       (error_callback db task_args drop_raises).2 = Except.ok ("error") ∧
       (∀ s ∈ (error_callback db task_args drop_raises).1.schemas, ¬ s.name = alternate) ∧
       (drop_raises = true →
         (error_callback db task_args drop_raises).1.tables = db.tables) ∧
       (drop_raises = false → ∃ s0 ∈ db.schemas, s0.name = alternate ∧
         (error_callback db task_args drop_raises).1.tables =
           db.tables.filter (fun t => t ≠ s0.db_table_name))) := by
  match hfind : db.schemas.find? (fun s => s.name == alternate) with
  | none =>
      have hnone : ∀ s ∈ db.schemas, ¬ s.name = alternate := by
        intro s hs hname
        have hq := List.find?_eq_none.mp hfind s hs
        simp [hname] at hq
      constructor
      · intro _
        rw [error_callback, hlast]
        simp only [hfind]
      · intro ⟨s, hs, hname⟩
        exact absurd hname (hnone s hs)
  | some s0 =>
      have hs0mem : s0 ∈ db.schemas := List.mem_of_find?_eq_some hfind
      have hs0name : s0.name = alternate := by
        have hq := List.find?_some hfind
        simpa using hq
      have hrwT : error_callback db task_args true =
          ({ db with schemas := db.schemas.filter (fun m => m.name ≠ alternate) },
           Except.ok ("error")) := by
        rw [error_callback, hlast]
        simp [hfind]
      have hrwF : error_callback db task_args false =
          ({ db with schemas := db.schemas.filter (fun m => m.name ≠ alternate), tables := db.tables.filter (fun t => t ≠ s0.db_table_name) },
           Except.ok ("error")) := by
        rw [error_callback, hlast]
        simp [hfind]
      constructor
      · intro hnone
        exact absurd hs0name (hnone s0 hs0mem)
      · intro _
        have hschemas : (error_callback db task_args drop_raises).1.schemas =
            db.schemas.filter (fun m => m.name ≠ alternate) := by
          cases drop_raises
          · rw [hrwF]
          · rw [hrwT]
        refine ⟨?_, ?_, ?_, ?_⟩
        · cases drop_raises
          · rw [hrwF]
          · rw [hrwT]
        · intro s hs hname
          rw [hschemas] at hs
          have hmem := List.mem_filter.mp hs
          rw [decide_eq_true_iff] at hmem
          exact hmem.2 hname
        · intro hdr
          subst hdr
          rw [hrwT]
        · intro hdr
          subst hdr
          rw [hrwF]
          exact ⟨s0, hs0mem, hs0name, rfl⟩

/-- Witness for claim C8: rollback for failing-task arguments ending in tbl,
with the drop raising, still deletes the schema row named tbl and leaves the
physical tables in place. -/
theorem error_callback_rollback_witness :
    ([("e"), ("tbl")].getLast? = some ("tbl")) ∧
    (∃ s ∈ db_tbl.schemas, s.name = ("tbl")) ∧
    ((error_callback db_tbl [("e"), ("tbl")] true).2 = Except.ok ("error") ∧
     (∀ s ∈ (error_callback db_tbl [("e"), ("tbl")] true).1.schemas,
       ¬ s.name = ("tbl")) ∧
     (error_callback db_tbl [("e"), ("tbl")] true).1.tables = db_tbl.tables) := by
  have h := error_callback_rollback db_tbl [("e"), ("tbl")] true ("tbl") (by decide)
  have h2 := h.2 (by decide)
  exact ⟨by decide, by decide, h2.1, h2.2.1, h2.2.2.1 rfl⟩

/-- Claim C3 counterexample: the claim fails on the code in two ways.  A
field whose name is the empty string (not None) does not fail the batch: the
task succeeds and inserts a row named by the empty string.  And in overwrite
mode application is not atomic: with a first valid field that already exists
and a second field with an unresolved class, the task raises
InvalidFieldNameError but the first field has already been updated in place,
so a field of the failing batch was applied. -/
theorem gpkg_handler_batch_failure_counterexample :
    (gpkg_handler db_t ("e")
      [FieldDef.mk (some ("")) (some ("IntegerField")) (some true)] 0 false ("t")).2 =
      Except.ok () ∧
    (gpkg_handler db_b ("e")
      [FieldDef.mk (some ("a")) (some ("FloatField")) (some true),
       FieldDef.mk (some ("b")) none (some true)] 0 true ("t")).2 =
      Except.error PipelineError.invalidFieldNameError ∧
    (gpkg_handler db_b ("e")
      [FieldDef.mk (some ("a")) (some ("FloatField")) (some true),
       FieldDef.mk (some ("b")) none (some true)] 0 true ("t")).1.fieldSchemas ≠
      db_b.fieldSchemas := by
  refine ⟨rfl, rfl, ?_⟩
  decide

/-- Claim C3 (amended): when some field of the batch has a missing (None)
class or a missing (None) name, the task fails with InvalidFieldNameError
(the code realization of InvalidFieldDefinition) and inserts nothing: the
multiset of (name, schema) keys in the store is unchanged.  In fresh-creation
mode the store is fully unchanged; in overwrite mode, in-place updates for
valid fields processed before the failing one may already be applied.  A
field whose name is the empty string does not fail the batch. -/
theorem gpkg_handler_batch_failure_amended (db : DB) (eid : String)
    (fields : List FieldDef) (sid : Nat) (ow : Bool) (ln : String)
    (hschema : ∃ s ∈ db.schemas, s.id = sid)
    (hbad : ∃ f ∈ fields, f.class_name = none ∨ f.name = none) :
    (gpkg_handler db eid fields sid ow ln).2 =
      Except.error PipelineError.invalidFieldNameError ∧
    (gpkg_handler db eid fields sid ow ln).1.fieldSchemas.map
        (fun r => (r.name, r.model_schema)) =
      db.fieldSchemas.map (fun r => (r.name, r.model_schema)) ∧
    (ow = false → (gpkg_handler db eid fields sid ow ln).1 = db) := by
  have hfindSome : (db.schemas.find? (fun s => s.id == sid)).isSome := by
    rw [List.find?_isSome]
    obtain ⟨s, hs, hid⟩ := hschema
    exact ⟨s, hs, by simp [hid]⟩
  have hloop := gpkg_handler_fields_error_on_bad sid ow fields db [] hbad
  rcases hres : gpkg_handler_fields sid ow fields db [] with ⟨db1, rti1, err⟩
  rw [hres] at hloop
  simp only at hloop
  obtain ⟨herr, hkeys, hraw⟩ := hloop
  subst herr
  have hrun : gpkg_handler db eid fields sid ow ln =
      (db1, Except.error PipelineError.invalidFieldNameError) := by
    rw [gpkg_handler, if_pos hfindSome, hres]
  rw [hrun]
  exact ⟨rfl, hkeys, hraw⟩

/-- Witness for the amended claim C3, at a schema that exists and a batch
whose second field has no resolved class. -/
theorem gpkg_handler_batch_failure_amended_witness :
    (∃ s ∈ db_t.schemas, s.id = 0) ∧
    (∃ f ∈ [FieldDef.mk (some ("a")) (some ("IntegerField")) (some true),
            FieldDef.mk (some ("geom")) none none],
      f.class_name = none ∨ f.name = none) ∧
    ((gpkg_handler db_t ("e")
        [FieldDef.mk (some ("a")) (some ("IntegerField")) (some true),
         FieldDef.mk (some ("geom")) none none] 0 false ("t")).2 =
      Except.error PipelineError.invalidFieldNameError ∧
     (gpkg_handler db_t ("e")
        [FieldDef.mk (some ("a")) (some ("IntegerField")) (some true),
         FieldDef.mk (some ("geom")) none none] 0 false ("t")).1.fieldSchemas.map
        (fun r => (r.name, r.model_schema)) =
      db_t.fieldSchemas.map (fun r => (r.name, r.model_schema)) ∧
     (false = false → (gpkg_handler db_t ("e")
        [FieldDef.mk (some ("a")) (some ("IntegerField")) (some true),
         FieldDef.mk (some ("geom")) none none] 0 false ("t")).1 = db_t)) :=
  ⟨by decide, by decide,
   gpkg_handler_batch_failure_amended db_t ("e")
     [FieldDef.mk (some ("a")) (some ("IntegerField")) (some true),
      FieldDef.mk (some ("geom")) none none] 0 false ("t") (by decide) (by decide)⟩

/-- Claim C4 counterexample: with a field list repeating the name a under two
classes, running the task twice with overwrite changes the row set between
the first and second run (the second run updates both same-named rows to
each duplicate in turn), so idempotence fails for an unrestricted field
list. -/
theorem gpkg_handler_reimport_counterexample :
    (gpkg_handler (gpkg_handler db_t ("e") fields_dup 0 true ("t")).1 ("e") fields_dup
        0 true ("t")).1.fieldSchemas ≠
      (gpkg_handler db_t ("e") fields_dup 0 true ("t")).1.fieldSchemas := by
  decide

/-- Claim C4 (amended): for a batch of valid field descriptors with pairwise
distinct names — as the descriptors of one layer are — running the task with
overwrite against an existing schema succeeds, and running it again from the
resulting store is the identity: every field is updated in place to the value
it already has and nothing is inserted. -/
theorem gpkg_handler_reimport_idempotent (db : DB) (eid ln : String)
    (fields : List FieldDef) (sid : Nat)
    (hv : ∀ f ∈ fields, f.name.isSome ∧ f.class_name.isSome)
    (hd : fields.Pairwise (fun a b => a.name ≠ b.name))
    (hschema : ∃ s ∈ db.schemas, s.id = sid) :
    (gpkg_handler db eid fields sid true ln).2 = Except.ok () ∧
    gpkg_handler (gpkg_handler db eid fields sid true ln).1 eid fields sid true ln =
      ((gpkg_handler db eid fields sid true ln).1, Except.ok ()) := by
  have hfind1 : (db.schemas.find? (fun s => s.id == sid)).isSome := by
    rw [List.find?_isSome]
    obtain ⟨s, hs, hid⟩ := hschema
    exact ⟨s, hs, by simp [hid]⟩
  have hE := gpkg_handler_fields_establishes sid fields db [] hv hd
    (fun f hf r hr => absurd hr (List.not_mem_nil r))
  have hSch := gpkg_handler_fields_schemas sid true fields db []
  rcases hres : gpkg_handler_fields sid true fields db [] with ⟨db1, rti1, err⟩
  rw [hres] at hE hSch
  simp only at hE hSch
  obtain ⟨herr, hsettled⟩ := hE
  subst herr
  have hrun1 : gpkg_handler db eid fields sid true ln =
      ({ db1 with fieldSchemas := db1.fieldSchemas ++ rti1 }, Except.ok ()) := by
    rw [gpkg_handler, if_pos hfind1, hres]
  rw [hrun1]
  refine ⟨rfl, ?_⟩
  have hfind2 : (({ db1 with fieldSchemas := db1.fieldSchemas ++ rti1 } : DB).schemas.find?
      (fun s => s.id == sid)).isSome := by
    show (db1.schemas.find? (fun s => s.id == sid)).isSome
    rw [hSch.1]
    exact hfind1
  have hfix := gpkg_handler_fields_fixed sid fields
    { db1 with fieldSchemas := db1.fieldSchemas ++ rti1 } [] hv
    (fun f hf => hsettled f hf)
  rw [gpkg_handler, if_pos hfind2, hfix]
  simp

/-- Two valid field descriptors with distinct names. -/
def fields_ab : List FieldDef :=
  [FieldDef.mk (some ("a")) (some ("IntegerField")) (some true),
   FieldDef.mk (some ("b")) (some ("CharField")) (some true)]

/-- Witness for the amended claim C4 on a two-field batch with distinct
names: the second overwrite run reproduces the store of the first. -/
theorem gpkg_handler_reimport_idempotent_witness :
    (∀ f ∈ fields_ab, f.name.isSome ∧ f.class_name.isSome) ∧
    fields_ab.Pairwise (fun a b => a.name ≠ b.name) ∧
    (∃ s ∈ db_t.schemas, s.id = 0) ∧
    ((gpkg_handler db_t ("e") fields_ab 0 true ("t")).2 = Except.ok () ∧
     gpkg_handler (gpkg_handler db_t ("e") fields_ab 0 true ("t")).1 ("e") fields_ab
        0 true ("t") =
      ((gpkg_handler db_t ("e") fields_ab 0 true ("t")).1, Except.ok ())) :=
  ⟨by decide, by decide, by decide,
   gpkg_handler_reimport_idempotent db_t ("e") ("t") fields_ab 0
     (by decide) (by decide) (by decide)⟩

/-- Claim C10: the descriptor list ignores the declared nullability of the
source columns entirely; the descriptor built for the i-th source column
carries the lowercased column name and null set to True; and the kwargs
built by the batch task give every CharField-classed field max_length 255
while passing the descriptor nullability through with default True. -/
theorem layer_schema_normalization (stm gtm : String → Option String) (layer : Layer) :
    (∀ nb : SourceField → Bool,
      layerSchemaOf stm gtm
        { layer with schema := layer.schema.map (fun x => { x with nullable := nb x }) } =
        layerSchemaOf stm gtm layer) ∧
    (∀ i, (h : i < layer.schema.length) →
      (layerSchemaOf stm gtm layer)[i]? =
        some (FieldDef.mk (some (py_lower (layer.schema[i]).name))
          (stm (layer.schema[i]).typeName) (some true))) ∧
    (∀ (f : FieldDef) (cn : String), py_endswith cn ("CharField") = true →
      (build_kwargs f cn).max_length = some 255 ∧
      (build_kwargs f cn).null = f.null.getD true) := by
  refine ⟨?_, ?_, ?_⟩
  · intro nb
    simp only [layerSchemaOf, List.map_map]
    rfl
  · intro i h
    rw [layerSchemaOf]
    rw [List.getElem?_append_left (by simpa using h)]
    rw [List.getElem?_map]
    rw [List.getElem?_eq_getElem h]
    rfl
  · intro f cn hcn
    constructor
    · simp [build_kwargs, hcn]
    · simp [build_kwargs, hcn]

/-- Witness for claim C10 at the sample layer: nullability flipped everywhere
leaves the descriptors unchanged, the first descriptor is the lowercased
nullable id column, and CharField kwargs carry max_length 255. -/
theorem layer_schema_normalization_witness :
    layerSchemaOf stm0 gtm0
      { layer0 with schema := layer0.schema.map (fun x => { x with nullable := true }) } =
      layerSchemaOf stm0 gtm0 layer0 ∧
    (0 < layer0.schema.length ∧
     (layerSchemaOf stm0 gtm0 layer0)[0]? =
       some (FieldDef.mk (some (py_lower ("ID"))) (stm0 ("Integer")) (some true))) ∧
    (py_endswith ("CharField") ("CharField") = true ∧
     (build_kwargs (FieldDef.mk (some ("label")) (some ("CharField")) (some true))
        ("CharField")).max_length = some 255) := by
  have h := layer_schema_normalization stm0 gtm0 layer0
  refine ⟨h.1 (fun _ => true), ⟨by decide, ?_⟩, by decide, ?_⟩
  · exact h.2.1 0 (by decide)
  · exact (h.2.2 (FieldDef.mk (some ("label")) (some ("CharField")) (some true))
      ("CharField") (by decide)).1
